import Mathlib

set_option maxRecDepth 200000

set_option exponentiation.threshold 2000

set_option allowUnsafeReducibility true

attribute [semireducible] Rat.mul Rat.add Rat.sub Rat.inv

/-!
Shallow embedding of the pasco-cap-analyze repository (src/index.py and
src/pascapalyze.py).

Modelling conventions:
* Python byte strings are lists of naturals below 256.
* Python floats are modelled exactly: finite doubles as rationals, plus
  infinities and NaN (`PFloat`).  Arithmetic on synthesized axes is exact
  rational arithmetic; IEEE-754 decoding of stored doubles is bit-precise.
* Python exceptions are explicit: fallible code returns `Except PyErr`.
* Diagnostics written with `print` are collected in `Diag` lists.
* A zip archive is an association list from (normalized) member name to its
  byte content; `archive.open` of an absent name raises `KeyError`, which the
  source catches, so lookups here return `Option`.
-/

/-- Python exception kinds that the modelled code can raise. -/
inductive PyErr where
  | typeError
  | valueError
  | zeroDivisionError
  | attributeError
  | indexError
  deriving DecidableEq, Repr

/-- Diagnostics printed by the source: the length-mismatch print in grok
(with its three printed arguments), the KeyError handler print, and the
"Failed to read" print in the line-table exporter. -/
inductive Diag where
  | lengthMismatch (isNone : Bool) (got : Nat) (expected : Int)
  | subfileMissing (name : String)
  | failedToRead (legend : Int) (group : Int)
  deriving DecidableEq, Repr

/-- Exact model of a Python float: a finite IEEE-754 double is represented by
its exact rational value; infinities and NaN are separate constructors. -/
inductive PFloat where
  | fin (q : ℚ)
  | inf (neg : Bool)
  | nan
  deriving DecidableEq, Repr

/-- A zip archive: member names mapped to byte contents. -/
abbrev Archive := List (String × List Nat)

/-- Association-list lookup, modelling zip member access by name. -/
def lookupA : Archive → String → Option (List Nat)
  | [], _ => none
  | (k, v) :: rest, n => if k = n then some v else lookupA rest n

/-- Success test for an `Except` result. -/
def exceptIsOk : Except PyErr α → Bool
  | .ok _ => true
  | .error _ => false

/-- Exception-propagating left fold, modelling a Python for-loop whose body
may raise: the first raised exception aborts the whole loop. -/
def foldE (f : β → α → Except PyErr β) : β → List α → Except PyErr β
  | b, [] => .ok b
  | b, a :: rest =>
    match f b a with
    | .error e => .error e
    | .ok b2 => foldE f b2 rest

/-- Exception-propagating map, modelling a Python loop that collects one
result per element and aborts on the first raised exception. -/
def mapE (f : α → Except PyErr β) : List α → Except PyErr (List β)
  | [] => .ok []
  | a :: rest =>
    match f a with
    | .error e => .error e
    | .ok b =>
      match mapE f rest with
      | .error e => .error e
      | .ok bs => .ok (b :: bs)

/-- Little-endian byte combination: the 64-bit word stored by 8 bytes, least
significant byte first, as used by struct.unpack("d"). -/
def unpackLE (bs : List Nat) : Nat :=
  bs.foldr (fun b acc => b % 256 + 256 * acc) 0

/-- Powers of two as exact rationals, for IEEE-754 significand scaling (the
power is computed on naturals so that it evaluates fast). -/
def qpow2 (e : Int) : ℚ :=
  if 0 ≤ e then (((2 ^ e.toNat : ℕ)) : ℚ) else ((((2 ^ (-e).toNat : ℕ)) : ℚ))⁻¹

/-- Exact IEEE-754 binary64 decoding of a 64-bit word: sign bit 63, biased
exponent bits 52..62, mantissa bits 0..51; exponent 2047 encodes inf/NaN,
exponent 0 encodes subnormals. -/
def f64FromBits (w0 : Nat) : PFloat :=
  let w : Nat := w0 % 2 ^ 64
  let sign : Nat := w / 2 ^ 63
  let expo : Nat := (w / 2 ^ 52) % 2 ^ 11
  let mant : Nat := w % 2 ^ 52
  if expo = 2047 then
    if mant = 0 then PFloat.inf (sign == 1) else PFloat.nan
  else
    let m : ℚ := (mant : ℚ) + (if expo = 0 then 0 else (2 : ℚ) ^ 52)
    let e : Int := (if expo = 0 then 1 else (expo : Int)) - 1075
    let mag : ℚ := m * qpow2 e
    PFloat.fin (if sign = 1 then -mag else mag)

/-- Model of struct.unpack("d", bs): exact value of the double whose 8 bytes
are given little-endian (the source only applies it to 8-byte slices). -/
def unpackD (bs : List Nat) : PFloat :=
  f64FromBits (unpackLE bs)

/-- Model of Python range(start, stop, step) for positive step (the source
only uses step 12); elements are start, start+step, ... below stop. -/
def pyRange (start stop step : Int) : List Int :=
  if 0 < step then
    (List.range (((stop - start + step - 1).fdiv step).toNat)).map
      (fun (i : Nat) => start + step * (i : Int))
  else []

/-- The record-decoding comprehension shared by both grok implementations:
numbers = [unpack("d", binary_data[offset:offset + 8])[0]
           for offset in range(4, 12 * data_size, 12)]. -/
def grokNumbers (data : List Nat) (dataSize : Int) : List PFloat :=
  (pyRange 4 (12 * dataSize) 12).map
    (fun off => unpackD ((data.drop off.toNat).take 8))

/-- Model of file.read(k) on an opened zip member: at most k bytes are
returned; a negative argument reads the whole stream. -/
def pyRead (data : List Nat) (k : Int) : List Nat :=
  if k < 0 then data else data.take k.toNat

/-- Value of a nonempty digit string. -/
def natOfDigits (l : List Char) : Nat :=
  l.foldl (fun a c => 10 * a + (c.toNat - 48)) 0

/-- Model of Python int(str) on the standard decimal forms: optional sign
followed by digits; anything else raises ValueError (None here). -/
def pyInt (s : String) : Option Int :=
  match s.toList with
  | [] => none
  | '-' :: rest =>
    if !rest.isEmpty && rest.all Char.isDigit then some (-(natOfDigits rest : Int)) else none
  | '+' :: rest =>
    if !rest.isEmpty && rest.all Char.isDigit then some ((natOfDigits rest : Int)) else none
  | l =>
    if l.all Char.isDigit then some ((natOfDigits l : Int)) else none

/-- Powers of ten as exact rationals, for decimal exponents (the power is
computed on naturals so that it evaluates fast). -/
def qpow10 (e : Int) : ℚ :=
  if 0 ≤ e then (((10 ^ e.toNat : ℕ)) : ℚ) else ((((10 ^ (-e).toNat : ℕ)) : ℚ))⁻¹

/-- Optional exponent part of a float literal: empty, or e/E with optional
sign and digits. -/
def pyFloatExp (v : ℚ) (rest : List Char) : Option ℚ :=
  match rest with
  | [] => some v
  | c :: r =>
    if c = 'e' || c = 'E' then
      match r with
      | '-' :: d =>
        if !d.isEmpty && d.all Char.isDigit then some (v * qpow10 (-(natOfDigits d : Int))) else none
      | '+' :: d =>
        if !d.isEmpty && d.all Char.isDigit then some (v * qpow10 ((natOfDigits d : Int))) else none
      | d =>
        if !d.isEmpty && d.all Char.isDigit then some (v * qpow10 ((natOfDigits d : Int))) else none
    else none

/-- Unsigned mantissa of a float literal: digits, optionally with a decimal
point; at least one digit overall. -/
def pyFloatCore (l : List Char) : Option ℚ :=
  let ip := l.takeWhile Char.isDigit
  let rest := l.dropWhile Char.isDigit
  if !ip.all Char.isDigit then none
  else
    match rest with
    | '.' :: rest2 =>
      let fp := rest2.takeWhile Char.isDigit
      let rest3 := rest2.dropWhile Char.isDigit
      if ip.isEmpty && fp.isEmpty then none
      else pyFloatExp ((natOfDigits ip : ℚ) + (natOfDigits fp : ℚ) / (10 : ℚ) ^ fp.length) rest3
    | _ => if ip.isEmpty then none else pyFloatExp ((natOfDigits ip : ℚ)) rest

/-- Model of Python float(str) on standard decimal literals (optional sign,
digits with optional point and exponent); other inputs raise ValueError. -/
def pyFloat (s : String) : Option ℚ :=
  match s.toList with
  | '-' :: rest => (pyFloatCore rest).map Neg.neg
  | '+' :: rest => pyFloatCore rest
  | l => pyFloatCore l

/-- Model of Python int(float): truncation toward zero. -/
def pyTrunc (q : ℚ) : Int :=
  q.num.tdiv (q.den : Int)

/-- Round-half-even on exact rationals, as Python round uses. -/
def roundHalfEven (x : ℚ) : Int :=
  let n := x.floor
  let r := x - (n : ℚ)
  if r < 1 / 2 then n
  else if 1 / 2 < r then n + 1
  else if n % 2 = 0 then n else n + 1

/-- Model of round(x, 12): round-half-even at the 12th decimal place. -/
def pyRound12 (q : ℚ) : ℚ :=
  (roundHalfEven (q * 10 ^ 12) : ℚ) / 10 ^ 12

/-- frange from index.py:
for index in range(int((stop - start) / step)): append round(start + step * index, 12).
Float division by a zero step raises ZeroDivisionError in Python. -/
def frange (start stop step : ℚ) : Except PyErr (List ℚ) :=
  if step = 0 then .error .zeroDivisionError
  else .ok ((List.range (pyTrunc ((stop - start) / step)).toNat).map
      (fun (i : Nat) => pyRound12 (start + step * (i : ℚ))))

/-- Decimal digits of a natural number (fuel-indexed so the kernel can
evaluate it; fuel at least the digit count suffices). -/
def natToChars : Nat → Nat → List Char
  | 0, _ => []
  | f + 1, n =>
    if n < 10 then [Char.ofNat (48 + n)]
    else natToChars f (n / 10) ++ [Char.ofNat (48 + n % 10)]

/-- Decimal rendering of a natural number, as Python str(int). -/
def natToStr (n : Nat) : String :=
  ⟨natToChars (n + 1) n⟩

/-- Decimal rendering of an integer, as Python str(int). -/
def intToStr (i : Int) : String :=
  if i < 0 then "-" ++ natToStr i.natAbs else natToStr i.toNat

/-- Decimal digits of the fractional part of a nonnegative rational, emitted
until it terminates (fuel-bounded; Python float reprs terminate within 17
significant digits, the case this models). -/
def fracDigits : Nat → ℚ → List Char
  | 0, _ => []
  | f + 1, q =>
    if q = 0 then []
    else
      let q10 := q * 10
      let d := q10.floor
      Char.ofNat (48 + d.toNat) :: fracDigits f (q10 - (d : ℚ))

/-- Rendering of a nonnegative rational the way Python str renders the float
it models: integer part, point, fractional digits (at least one). -/
def ratReprNN (q : ℚ) : String :=
  let ds := fracDigits 17 (q - (q.floor : ℚ))
  natToStr q.floor.toNat ++ "." ++ (if ds.isEmpty then "0" else ⟨ds⟩)

/-- Model of Python str on a float with exact rational value q. -/
def ratRepr (q : ℚ) : String :=
  if q < 0 then "-" ++ ratReprNN (-q) else ratReprNN q

/-- Model of Python str on any float value. -/
def pfloatRepr : PFloat → String
  | .fin q => ratRepr q
  | .inf b => if b then "-inf" else "inf"
  | .nan => "nan"

/-- Replacement over character lists (fuel-indexed for kernel evaluation;
fuel at least the text length suffices and the pattern is nonempty wherever
the source calls str.replace). -/
def replChars : Nat → List Char → List Char → List Char → List Char
  | 0, s, _, _ => s
  | f + 1, s, pat, rep =>
    match s with
    | [] => []
    | c :: rest =>
      if pat.isPrefixOf s && !pat.isEmpty then rep ++ replChars f (s.drop pat.length) pat rep
      else c :: replChars f rest pat rep

/-- Model of Python str.replace(pat, rep). -/
def pyStrReplace (s pat rep : String) : String :=
  ⟨replChars s.length s.toList pat.toList rep.toList⟩

/-- Split a character list at every slash, as posixpath.normpath does with
path.split(sep). -/
def splitSlash : List Char → List (List Char)
  | [] => [[]]
  | c :: rest =>
    match splitSlash rest with
    | [] => [[c]]
    | h :: t => if c = '/' then [] :: h :: t else (c :: h) :: t

/-- One step of posixpath.normpath component processing: drop empty and dot
components, resolve dot-dot against the accumulated components. -/
def npStep (initialSlashes : Bool) (acc : List (List Char)) (comp : List Char) : List (List Char) :=
  if comp = [] ∨ comp = ['.'] then acc
  else if comp ≠ ['.', '.'] ∨ (¬initialSlashes ∧ acc = []) ∨ (acc ≠ [] ∧ acc.getLast? = some ['.', '.']) then
    acc ++ [comp]
  else if acc ≠ [] then acc.dropLast
  else acc

/-- Join path components with slashes. -/
def joinSlash : List (List Char) → List Char
  | [] => []
  | [x] => x
  | x :: rest => x ++ '/' :: joinSlash rest

/-- Model of posixpath.normpath: collapse duplicate separators and dot
components, resolve dot-dot, preserve the double-slash special case. -/
def normpathPosix (p : String) : String :=
  let l := p.toList
  if l = [] then "."
  else
    let initOne := l.take 1 = ['/']
    let initTwo := l.take 2 = ['/', '/'] ∧ ¬(l.take 3 = ['/', '/', '/'])
    let newComps := (splitSlash l).foldl (npStep initOne) []
    let pfxN : Nat := if initTwo then 2 else if initOne then 1 else 0
    let res := List.replicate pfxN '/' ++ joinSlash newComps
    if res = [] then "." else ⟨res⟩

/-- Archive key used by grok in index.py:
os.path.normpath(file_name).replace("\\", "/"). -/
def indexGrokKey (fn : String) : String :=
  pyStrReplace (normpathPosix fn) "\\" "/"

/-- Archive key used by grok in pascapalyze.py:
file_name.replace("\\", "/").replace("//", "/"). -/
def pascaGrokKey (fn : String) : String :=
  pyStrReplace (pyStrReplace fn "\\" "/") "//" "/"

/-- First position of a needle within a haystack of characters. -/
def posOfAux (needle : List Char) : List Char → Nat → Option Nat
  | [], i => if needle.isEmpty then some i else none
  | c :: rest, i =>
    if needle.isPrefixOf (c :: rest) then some i else posOfAux needle rest (i + 1)

/-- First position of a substring within a string. -/
def posOf (needle hay : String) : Option Nat :=
  posOfAux needle.toList hay.toList 0

/-- Substring occurrence test. -/
def strOccurs (needle hay : String) : Bool :=
  (posOf needle hay).isSome

/-- True when substring a occurs in hay strictly before substring b. -/
def occursBefore (a b hay : String) : Bool :=
  match posOf a hay, posOf b hay with
  | some i, some j => i < j
  | _, _ => false

/-- Lexicographic ordering of character lists by code point, as Python string
comparison. -/
def lexLe : List Char → List Char → Bool
  | [], _ => true
  | _ :: _, [] => false
  | a :: as2, b :: bs2 =>
    if a.toNat < b.toNat then true
    else if b.toNat < a.toNat then false
    else lexLe as2 bs2

/-- Python string less-or-equal. -/
def strLe (a b : String) : Bool :=
  lexLe a.toList b.toList

/-- Integer less-or-equal as a boolean. -/
def intLe (a b : Int) : Bool :=
  a ≤ b

/-- Stable insertion into a sorted list: the new element goes after every
element already ordered at or before it. -/
def insertSortedBy (le : α → α → Bool) (x : α) : List α → List α
  | [] => [x]
  | y :: rest => if le y x then y :: insertSortedBy le x rest else x :: y :: rest

/-- Stable sort, modelling Python sorted with a key projection folded into
the comparison. -/
def insertSortBy (le : α → α → Bool) (l : List α) : List α :=
  l.foldl (fun acc x => insertSortedBy le x acc) []

/-- grok from index.py.  data_size 0 returns [] before any archive access;
a None file name makes os.path.normpath raise TypeError; a missing member
raises KeyError which is caught and reported; a short read is reported and
yields []; otherwise the stride decode runs.  The KeyError print shows the
original (unnormalized) name. -/
def grokIndex (fileName : Option String) (dataSize : Int) (archive : Archive) :
    Except PyErr (List PFloat × List Diag) :=
  if dataSize = 0 then .ok ([], [])
  else
    match fileName with
    | none => .error .typeError
    | some fn =>
      match lookupA archive (indexGrokKey fn) with
      | none => .ok ([], [Diag.subfileMissing fn])
      | some buf =>
        let binary := pyRead buf (12 * dataSize)
        if binary.isEmpty || (binary.length : Int) != 12 * dataSize then
          .ok ([], [Diag.lengthMismatch false binary.length (12 * dataSize)])
        else .ok (grokNumbers binary dataSize, [])

/-- grok from pascapalyze.py: same checks, but the result is wrapped in an
extra list ([numbers]), a None file name raises AttributeError (None has no
replace method), and the KeyError print shows the normalized name. -/
def grokPasca (fileName : Option String) (dataSize : Int) (archive : Archive) :
    Except PyErr (List (List PFloat) × List Diag) :=
  if dataSize = 0 then .ok ([], [])
  else
    match fileName with
    | none => .error .attributeError
    | some fn =>
      match lookupA archive (pascaGrokKey fn) with
      | none => .ok ([], [Diag.subfileMissing (pascaGrokKey fn)])
      | some buf =>
        let binary := pyRead buf (12 * dataSize)
        if binary.isEmpty || (binary.length : Int) != 12 * dataSize then
          .ok ([], [Diag.lengthMismatch false binary.length (12 * dataSize)])
        else .ok ([grokNumbers binary dataSize], [])

/-- Independent source of a channel after manifest resolution: a subfile path
(str) or a fixed time step (float), as the tagged value flowing into
DataSet.__init__. -/
inductive XSource where
  | path (p : String)
  | step (s : ℚ)
  deriving DecidableEq, Repr

/-- The DataSet object of index.py after construction from an archive. -/
structure DataSet where
  name : Option String
  x_values : List PFloat
  y_values : List PFloat
  data_size : Int
  channel_id_name : Option String
  deriving DecidableEq, Repr

/-- DataSet.__init__ with a (truthy) archive, the only path process_archive
exercises: a str x source is grokked, a float x source synthesizes the axis
through frange(0, x * data_size, x), and y is always grokked.  Arguments are
resolved in source order, so a frange ZeroDivisionError precedes the y read. -/
def mkDataSet (name : Option String) (xv : XSource) (yv : Option String)
    (dataSize : Int) (channelId : Option String) (archive : Archive) :
    Except PyErr DataSet :=
  match xv with
  | .path p => do
    let xres ← grokIndex (some p) dataSize archive
    let yres ← grokIndex yv dataSize archive
    .ok ⟨name, xres.1, yres.1, dataSize, channelId⟩
  | .step s => do
    let xs ← frange 0 (s * (dataSize : ℚ)) s
    let yres ← grokIndex yv dataSize archive
    .ok ⟨name, xs.map PFloat.fin, yres.1, dataSize, channelId⟩

/-- IndependentStorageElement attributes read by the source. -/
structure IndependentStorageElement where
  fileName : Option String
  intervalCacheInterval : Option String
  deriving DecidableEq, Repr

/-- DependentStorageElement attributes read by the source. -/
structure DependentStorageElement where
  fileName : Option String
  dataCacheDataSize : Option String
  deriving DecidableEq, Repr

/-- DataSegmentElement children looked up by the source; find returns None
when a child is absent. -/
structure DataSegmentElement where
  dependent : Option DependentStorageElement
  independent : Option IndependentStorageElement
  deriving DecidableEq, Repr

/-- DataSet manifest element: its DataGroupNumber attribute and its
DataSegmentElement child. -/
structure DataSetElement where
  dataGroupNumber : Option String
  dataSegment : Option DataSegmentElement
  deriving DecidableEq, Repr

/-- DataSource manifest element with its DataSet children. -/
structure DataSource where
  measurementName : Option String
  channelIDName : Option String
  dataSets : List DataSetElement
  deriving DecidableEq, Repr

/-- The parsed main.xml manifest: the DataSource children of DataRepository.
XML parsing itself is abstracted; the structures carry exactly the attributes
the source reads. -/
structure Manifest where
  dataSources : List DataSource
  deriving DecidableEq, Repr

/-- A CapstoneFile instance as far as process_archive needs it: the object
carries an archive attribute. -/
structure CapstoneFileModel where
  archive : Archive
  deriving DecidableEq, Repr

/-- The argument of CapstoneFile.process_archive: either a raw ZipFile or a
CapstoneFile instance (the implicit self of a method call). -/
inductive CapArg where
  | zip (z : Archive)
  | capstone (c : CapstoneFileModel)
  deriving DecidableEq, Repr

/-- Evaluation of the expression capstone_file.archive: a ZipFile has no
archive attribute, so that call raises AttributeError. -/
def argArchive : CapArg → Except PyErr Archive
  | .zip _ => .error .attributeError
  | .capstone c => .ok c.archive

/-- Model of int(element.get(attr)): a missing attribute gives int(None),
a TypeError; an unparsable string raises ValueError. -/
def pyIntAttr (a : Option String) : Except PyErr Int :=
  match a with
  | none => .error .typeError
  | some s =>
    match pyInt s with
    | none => .error .valueError
    | some n => .ok n

/-- Resolution of the independent source when FileName is absent or empty:
float(independent_file.get("IntervalCacheInterval")); float(None) raises
TypeError, an unparsable string raises ValueError. -/
def indFallback (ind : IndependentStorageElement) : Except PyErr XSource :=
  match ind.intervalCacheInterval with
  | none => .error .typeError
  | some s =>
    match pyFloat s with
    | none => .error .valueError
    | some q => .ok (.step q)

/-- Per-DataSet-element attribute extraction of process_archive, in source
order: the DataSegmentElement find raises AttributeError when the segment is
absent, then DataGroupNumber and DataCacheDataSize are parsed as ints, then
the independent source is resolved (an empty or missing FileName is falsy and
falls through to IntervalCacheInterval). -/
def dsParse (el : DataSetElement) :
    Except PyErr (Int × Int × Option String × XSource) := do
  match el.dataSegment with
  | none => .error .attributeError
  | some seg =>
    let groupNumber ← pyIntAttr el.dataGroupNumber
    match seg.dependent with
    | none => .error .attributeError
    | some dep =>
      let dataSize ← pyIntAttr dep.dataCacheDataSize
      match seg.independent with
      | none => .error .attributeError
      | some ind =>
        let x ←
          match ind.fileName with
          | some s => if s = "" then indFallback ind else .ok (XSource.path s)
          | none => indFallback ind
        .ok (groupNumber, dataSize, dep.fileName, x)

/-- Insertion-ordered dict update data_sets[group].append(d), creating the
key on first use, as the source does with its in-dict check. -/
def dictAppend (d : List (Int × List DataSet)) (k : Int) (v : DataSet) :
    List (Int × List DataSet) :=
  match d with
  | [] => [(k, [v])]
  | (k2, l) :: rest =>
    if k2 = k then (k2, l ++ [v]) :: rest else (k2, l) :: dictAppend rest k v

/-- Python falsiness of the channel id: an empty string is replaced by None
in the argument channel_id_name if channel_id_name else None. -/
def normChannel : Option String → Option String
  | some "" => none
  | x => x

/-- Loop body of process_archive for one DataSet element: parse attributes,
evaluate the DataSet arguments (ending with capstone_file.archive), construct
the DataSet and append it under its group number. -/
def dsStep (capArg : CapArg) (mname cname : Option String)
    (acc : List (Int × List DataSet)) (el : DataSetElement) :
    Except PyErr (List (Int × List DataSet)) := do
  let parsed ← dsParse el
  let arch ← argArchive capArg
  let d ← mkDataSet mname parsed.2.2.2 parsed.2.2.1 parsed.2.1 (normChannel cname) arch
  .ok (dictAppend acc parsed.1 d)

/-- Loop body of process_archive for one DataSource: sources without DataSet
children are skipped, otherwise every DataSet element is processed. -/
def sourceStep (capArg : CapArg) (acc : List (Int × List DataSet))
    (src : DataSource) : Except PyErr (List (Int × List DataSet)) :=
  if src.dataSets.isEmpty then .ok acc
  else foldE (dsStep capArg src.measurementName src.channelIDName) acc src.dataSets

/-- CapstoneFile.process_archive given the parsed manifest: walk every
DataSource and accumulate the grouped DataSets; any exception raised in the
loop propagates out. -/
def processArchive (capArg : CapArg) (manifest : Manifest) :
    Except PyErr (List (Int × List DataSet)) :=
  foldE (sourceStep capArg) [] manifest.dataSources

/-- An element of the line-table transpose: decoded floats, or the integer 0
used as padding by transpose (Python str renders them differently). -/
inductive PyNum where
  | ofFloat (v : PFloat)
  | ofInt (n : Int)
  deriving DecidableEq, Repr

/-- Python str of a transpose element. -/
def pyNumRepr : PyNum → String
  | .ofFloat v => pfloatRepr v
  | .ofInt n => intToStr n

/-- max(len(sublist) for sublist in array), for nonempty array. -/
def pyMaxLen (a : List (List α)) : Nat :=
  a.foldl (fun m l => max m l.length) 0

/-- transpose from pascapalyze.py: pad every row with integer zeros up to the
longest row, then zip the rows.  After padding all rows share the maximal
length, so the getD default is never used. -/
def pyTranspose (array : List (List PyNum)) : List (List PyNum) :=
  if array.isEmpty then []
  else
    let maxLength := pyMaxLen array
    let extended := array.map (fun l => l ++ List.replicate (maxLength - l.length) (PyNum.ofInt 0))
    (List.range maxLength).map (fun i => extended.map (fun row => row.getD i (PyNum.ofInt 0)))

/-- format_tabulated_data from pascapalyze.py: each transposed line is
rendered as line[0], tab, line[1], newline; indexing a tuple with fewer than
two entries raises IndexError. -/
def formatTabulatedData (data : List (List PyNum)) : Except PyErr String :=
  foldE
    (fun acc line =>
      match line with
      | a :: b :: _ => .ok (acc ++ pyNumRepr a ++ "\t" ++ pyNumRepr b ++ "\n")
      | _ => .error .indexError)
    "" (pyTranspose data)

/-- The f-string interpolation of the x source in the channel prefix: a path
renders as the bare string, a step as the float repr. -/
def xsourceRepr : XSource → String
  | .path p => p
  | .step s => ratRepr s

/-- The f-string interpolation of an optional string (None prints None). -/
def optStrRepr : Option String → String
  | some s => s
  | none => "None"

/-- The per-channel prefix block of the line-table export: the metadata
comment, the type directive and the legend directive with the current legend
index. -/
def pascoPfx (g : Int) (label : String) (x : XSource) (y : Option String)
    (legend : Int) : String :=
  "# " ++ intToStr g ++ ", field \"" ++ label ++ "\", from " ++ xsourceRepr x ++
    " and " ++ optStrRepr y ++ ".\n@TYPE xy\n@    legend string " ++
    intToStr legend ++ " \"" ++ label ++ "\"\n"

/-- State threaded through the line-table channel loop: accumulated output
text, the legend index and the printed diagnostics. -/
abbrev PascoState := String × Int × List Diag

/-- One channel of the line-table group dict: label mapped to the tuple of
independent source, dependent file name and data size. -/
abbrev PascoChannel := String × XSource × Option String × Int

/-- The grouped dict built by pascapalyze.process_archive: group number to
label-keyed channels, both in insertion order. -/
abbrev PascoGroups := List (Int × List PascoChannel)

/-- Shared tail of the line-table channel body: an empty combined list is
reported as Failed to read and skipped (the legend index stays consumed),
otherwise the tabulated body is appended to the output. -/
def pascoEmit (text : String) (legend2 : Int) (diags : List Diag) (pfx : String)
    (g : Int) (combined : List (List PFloat)) : Except PyErr PascoState :=
  if combined.isEmpty then .ok (text, legend2, diags ++ [Diag.failedToRead legend2 g])
  else do
    let body ← formatTabulatedData (combined.map (fun l => l.map PyNum.ofFloat))
    .ok (text ++ pfx ++ body ++ "&\n", legend2, diags)

/-- Loop body of the line-table export for one channel: zero-size channels
are skipped before the legend is touched; otherwise the prefix is built and
the legend index incremented before any decode, a fixed step synthesizes the
independent row from the dependent row length (skipping silently when the
dependent decode failed), and a path source concatenates both grok results. -/
def pascoChannelStep (archive : Archive) (g : Int) (st : PascoState)
    (ch : PascoChannel) : Except PyErr PascoState :=
  if ch.2.2.2 = 0 then .ok st
  else
    let pfx := pascoPfx g ch.1 ch.2.1 ch.2.2.1 st.2.1
    let legend2 := st.2.1 + 1
    match ch.2.1 with
    | .step s => do
      let dep ← grokPasca ch.2.2.1 ch.2.2.2 archive
      let diags2 := st.2.2 ++ dep.2
      if dep.1.isEmpty then .ok (st.1, legend2, diags2)
      else
        let independent := [(List.range (dep.1.headD []).length).map
          (fun (i : Nat) => PFloat.fin (s * (i : ℚ)))]
        pascoEmit st.1 legend2 diags2 pfx g (independent ++ dep.1)
    | .path p => do
      let gx ← grokPasca (some p) ch.2.2.2 archive
      let gy ← grokPasca ch.2.2.1 ch.2.2.2 archive
      pascoEmit st.1 legend2 (st.2.2 ++ gx.2 ++ gy.2) pfx g (gx.1 ++ gy.1)

/-- One group of the line-table export: channels sorted by label (Python
sorted on dict items), folded over the header block; the written file content
and the printed diagnostics are returned. -/
def pascoExportGroup (archive : Archive) (g : Int) (gd : List PascoChannel) :
    Except PyErr (String × List Diag) :=
  match foldE (pascoChannelStep archive g)
      ("# dump from cap file\n@WITH G0\n@G0 ON\n", 0, [])
      (insertSortBy (fun a b => strLe a.1 b.1) gd) with
  | .error e => .error e
  | .ok st => .ok (st.1, st.2.2)

/-- The output-file loop of pascapalyze.process_archive: groups sorted by
group number, one output text per group. -/
def pascoExport (archive : Archive) (ds : PascoGroups) :
    Except PyErr (List (Int × String)) :=
  mapE
    (fun p =>
      match pascoExportGroup archive p.1 p.2 with
      | .error e => .error e
      | .ok st => .ok (p.1, st.1))
    (insertSortBy (fun a b => intLe a.1 b.1) ds)

/-- A cell of the delimited-table grid: a string literal, a float value, or
the None name of an unnamed data source (str renders it as None). -/
inductive Cell where
  | cellStr (s : String)
  | cellFloat (v : PFloat)
  | cellNone
  deriving DecidableEq, Repr

/-- The name header cell of a column pair. -/
def nameCell : Option String → Cell
  | some s => .cellStr s
  | none => .cellNone

/-- The x column of a data set in to_csv: blank cell, name cell, then the x
values (x_values and y_values are always lists for assembled data sets, so
the list-type guard of the source passes). -/
def colX (d : DataSet) : List Cell :=
  [.cellStr "", nameCell d.name] ++ d.x_values.map .cellFloat

/-- The y column of a data set in to_csv: two blank header cells, then the y
values. -/
def colY (d : DataSet) : List Cell :=
  [.cellStr "", .cellStr ""] ++ d.y_values.map .cellFloat

/-- Group header stamping of to_csv: a nonempty group gets the group number
written into the first cell of its first column, an empty group contributes
the placeholder single-cell column. -/
def stampGroup (g : Int) (cols : List (List Cell)) : List (List Cell) :=
  match cols with
  | [] => [[.cellStr ("Group " ++ intToStr g ++ " (empty)")]]
  | c :: rest =>
    match c with
    | [] => [.cellStr ("Group " ++ intToStr g)] :: rest
    | _ :: ctail => (.cellStr ("Group " ++ intToStr g) :: ctail) :: rest

/-- Per-group accumulation of to_csv: two columns per data set, the running
maximal column length, then header stamping. -/
def toCsvGroupStep (st : List (List Cell) × Nat) (grp : Int × List DataSet) :
    List (List Cell) × Nat :=
  let inner := grp.2.foldl
    (fun (p : List (List Cell) × Nat) d =>
      (p.1 ++ [colX d, colY d], max (max p.2 (colX d).length) (colY d).length))
    (([] : List (List Cell)), st.2)
  (st.1 ++ stampGroup grp.1 inner.1, inner.2)

/-- The original_table and max_column_length of to_csv, built over the groups
in dict insertion order. -/
def toCsvTable (ds : List (Int × List DataSet)) : List (List Cell) × Nat :=
  ds.foldl toCsvGroupStep ([], 1)

/-- Cell rendering of to_csv: str(cell), with the decimal separator
substituted only in float cells. -/
def renderCell (decSep : String) : Cell → String
  | .cellStr s => s
  | .cellNone => "None"
  | .cellFloat v => pyStrReplace (pfloatRepr v) "." decSep

/-- Python sep.join. -/
def strJoin (sep : String) : List String → String
  | [] => ""
  | [x] => x
  | x :: rest => x ++ sep ++ strJoin sep rest

/-- CapstoneFile.to_csv given the grouped data sets: pad every column to the
maximal height with empty cells, then emit the rows, cells joined by the cell
separator with a trailing separator, rows joined by newlines. -/
def toCsv (ds : List (Int × List DataSet)) (decSep cellSep : String) : String :=
  let t := toCsvTable ds
  let padded := t.1.map (fun col => col ++ List.replicate (t.2 - col.length) (Cell.cellStr ""))
  strJoin "\n" ((List.range t.2).map (fun r =>
    strJoin cellSep (padded.map (fun col => renderCell decSep (col.getD r (Cell.cellStr "")))) ++ cellSep))

deriving instance DecidableEq for Except

lemma twelve_fdiv (n : ℕ) : ((12 * (n : Int) - 4 + 12 - 1).fdiv 12).toNat = n := by
  rw [Int.fdiv_eq_ediv _ (by norm_num)]
  omega

lemma pyRange_stride (n : ℕ) :
    pyRange 4 (12 * (n : Int)) 12 =
      (List.range n).map (fun i : ℕ => (4 : Int) + 12 * (i : Int)) := by
  unfold pyRange
  rw [if_pos (by norm_num)]
  rw [twelve_fdiv]

lemma grokNumbers_eq (data : List Nat) (n : ℕ) :
    grokNumbers data (n : Int) =
      (List.range n).map (fun k => unpackD ((data.drop (4 + 12 * k)).take 8)) := by
  unfold grokNumbers
  rw [pyRange_stride, List.map_map]
  apply List.map_congr_left
  intro a _
  simp only [Function.comp_apply]
  congr 2

lemma grokNumbers_length (data : List Nat) (n : ℕ) :
    (grokNumbers data (n : Int)).length = n := by
  rw [grokNumbers_eq]
  simp

/-- C3: a buffer of exactly 12n bytes decodes to exactly n doubles, the k-th
being the IEEE-754 value stored little-endian in bytes 4..12 of the k-th
12-byte record; the leading 4 bytes of each record are discarded. -/
theorem grokNumbers_stride_decode (data : List Nat) (n : ℕ) (h : data.length = 12 * n) :
    (grokNumbers data (n : Int)).length = n ∧
    ∀ k : ℕ, k < n →
      (grokNumbers data (n : Int)).getD k PFloat.nan =
        unpackD ((data.drop (12 * k + 4)).take 8) := by
  refine ⟨grokNumbers_length data n, ?_⟩
  intro k hk
  rw [grokNumbers_eq, List.getD_eq_getElem?_getD, List.getElem?_map,
    List.getElem?_range hk]
  simp only [Option.map_some', Option.getD_some]
  rw [Nat.add_comm 4 (12 * k)]

/-- Witness for C3 at a concrete 12-byte zero buffer with count 1. -/
theorem grokNumbers_stride_decode_witness :
    (List.replicate 12 0).length = 12 * 1 ∧
    ((grokNumbers (List.replicate 12 0) ((1 : ℕ) : Int)).length = 1 ∧
      ∀ k : ℕ, k < 1 →
        (grokNumbers (List.replicate 12 0) ((1 : ℕ) : Int)).getD k PFloat.nan =
          unpackD (((List.replicate 12 0).drop (12 * k + 4)).take 8)) :=
  ⟨by decide, grokNumbers_stride_decode (List.replicate 12 0) 1 (by decide)⟩

/-- C9: grok with declared count 0 returns an empty sequence and no
diagnostic in both implementations, for every file name (even None) and every
archive, so it touches no archive state. -/
theorem grok_zero_count (fn : Option String) (archive : Archive) :
    grokIndex fn 0 archive = .ok ([], []) ∧ grokPasca fn 0 archive = .ok ([], []) :=
  ⟨rfl, rfl⟩

/-- C4 counterexample: a fixed step of 0 with count 3 is claimed to produce
the three-term progression [0, 0, 0]; instead frange raises
ZeroDivisionError from int((stop - start) / step). -/
theorem frange_zero_step_raises :
    frange 0 (0 * (3 : ℚ)) 0 = .error .zeroDivisionError ∧
    frange 0 (0 * (3 : ℚ)) 0 ≠ .ok [0, 0, 0] := by
  constructor
  · rfl
  · decide

lemma pyTrunc_natCast (n : ℕ) : pyTrunc ((n : ℚ)) = n := by
  unfold pyTrunc
  simp [Rat.num_natCast, Rat.den_natCast]

lemma frange_spec (s : ℚ) (n : ℕ) (hs : s ≠ 0) :
    frange 0 (s * (n : ℚ)) s =
      .ok ((List.range n).map (fun (i : Nat) => pyRound12 (s * (i : ℚ)))) := by
  unfold frange
  rw [if_neg hs]
  have h1 : (s * (n : ℚ) - 0) / s = (n : ℚ) := by field_simp
  rw [h1, pyTrunc_natCast]
  simp [zero_add]

/-- C4 amended: for every nonzero fixed step s and count n the synthesized
axis is exactly the n-term progression 0·s, 1·s, ..., (n-1)·s, each term
rounded half-even at the 12th decimal place (step 0 instead raises, see the
counterexample). -/
theorem frange_fixed_step_axis (s : ℚ) (n : ℕ) (hs : s ≠ 0) :
    frange 0 (s * (n : ℚ)) s =
      .ok ((List.range n).map (fun (i : Nat) => pyRound12 (s * (i : ℚ)))) :=
  frange_spec s n hs

/-- Witness for the amended C4 at step one half and count 3. -/
theorem frange_fixed_step_axis_witness :
    (1 / 2 : ℚ) ≠ 0 ∧
    frange 0 ((1 / 2 : ℚ) * ((3 : ℕ) : ℚ)) (1 / 2) =
      .ok ((List.range 3).map (fun (i : Nat) => pyRound12 ((1 / 2 : ℚ) * (i : ℚ)))) :=
  ⟨by norm_num, frange_fixed_step_axis (1 / 2) 3 (by norm_num)⟩

lemma pyRead_nonneg (buf : List Nat) (n : ℕ) :
    pyRead buf (12 * (n : Int)) = buf.take (12 * n) := by
  unfold pyRead
  rw [if_neg (by omega)]
  congr 1

lemma grokIndex_read_full (fn : String) (n : ℕ) (archive : Archive) (buf : List Nat)
    (hn : 0 < n) (hl : lookupA archive (indexGrokKey fn) = some buf)
    (hlen : 12 * n ≤ buf.length) :
    grokIndex (some fn) (n : Int) archive =
      .ok (grokNumbers (buf.take (12 * n)) (n : Int), []) := by
  have hn0 : ¬((n : Int) = 0) := by exact_mod_cast hn.ne'
  unfold grokIndex
  rw [if_neg hn0]
  simp only [hl]
  rw [pyRead_nonneg]
  have hlen2 : (buf.take (12 * n)).length = 12 * n := by
    rw [List.length_take]
    omega
  have hempty : (buf.take (12 * n)).isEmpty = false := by
    rcases hb : buf.take (12 * n) with _ | ⟨a, l⟩
    · rw [hb] at hlen2
      simp at hlen2
      omega
    · rfl
  rw [hempty, hlen2]
  simp

lemma grokIndex_read_short (fn : String) (n : ℕ) (archive : Archive) (buf : List Nat)
    (hn : 0 < n) (hl : lookupA archive (indexGrokKey fn) = some buf)
    (hlen : buf.length < 12 * n) :
    grokIndex (some fn) (n : Int) archive =
      .ok ([], [Diag.lengthMismatch false buf.length (12 * (n : Int))]) := by
  have hn0 : ¬((n : Int) = 0) := by exact_mod_cast hn.ne'
  unfold grokIndex
  rw [if_neg hn0]
  simp only [hl]
  rw [pyRead_nonneg]
  have htake : buf.take (12 * n) = buf := List.take_of_length_le (by omega)
  rw [htake]
  have hne : ((buf.length : Int) != 12 * (n : Int)) = true := by
    rw [bne_iff_ne]
    intro hc
    omega
  rw [hne]
  simp

/-- C5 counterexample: a subfile of 24 bytes with declared count 1 (length
differs from 12) is claimed to decode to an empty sequence with a
length-mismatch diagnostic; instead the read is capped at 12 bytes, the
length check passes, and the first record decodes silently. -/
theorem grok_overlong_succeeds :
    grokIndex (some "d.bin") 1 [("d.bin", List.replicate 24 0)] =
      .ok ([PFloat.fin 0], []) ∧
    Except.map (fun r => r.1.isEmpty)
        (grokIndex (some "d.bin") 1 [("d.bin", List.replicate 24 0)]) =
      .ok false := by
  constructor <;> decide

/-- C5 amended: for declared count n greater than 0 and a subfile present
under the normalized name, decoding returns an empty sequence with a
length-mismatch diagnostic exactly when the subfile holds fewer than 12n
bytes; a subfile of at least 12n bytes is silently truncated to its first n
records and decodes without diagnostic or error. -/
theorem grok_length_mismatch_behaviour (fn : String) (n : ℕ) (archive : Archive)
    (buf : List Nat) (hn : 0 < n)
    (hl : lookupA archive (indexGrokKey fn) = some buf) :
    (buf.length < 12 * n →
      grokIndex (some fn) (n : Int) archive =
        .ok ([], [Diag.lengthMismatch false buf.length (12 * (n : Int))])) ∧
    (12 * n ≤ buf.length →
      grokIndex (some fn) (n : Int) archive =
        .ok (grokNumbers (buf.take (12 * n)) (n : Int), [])) :=
  ⟨fun h => grokIndex_read_short fn n archive buf hn hl h,
   fun h => grokIndex_read_full fn n archive buf hn hl h⟩

/-- Witness for the amended C5: a 5-byte subfile with count 1 reports the
mismatch and yields no values. -/
theorem grok_length_mismatch_behaviour_witness :
    0 < 1 ∧
    grokIndex (some "d.bin") ((1 : ℕ) : Int) [("d.bin", List.replicate 5 0)] =
      .ok ([], [Diag.lengthMismatch false (List.replicate 5 (0 : Nat)).length (12 * ((1 : ℕ) : Int))]) :=
  ⟨Nat.one_pos,
    (grok_length_mismatch_behaviour "d.bin" 1 [("d.bin", List.replicate 5 0)]
      (List.replicate 5 0) Nat.one_pos (by decide)).1 (by decide)⟩

/-- C2 counterexample: a fixed-step descriptor with step 0, count 1 and an
intact 12-byte dependent subfile is claimed to assemble into a DataSet with
one x and one y value; instead DataSet construction raises
ZeroDivisionError inside frange. -/
theorem mkDataSet_zero_step_raises :
    mkDataSet (some "Temp") (.step 0) (some "d.bin") 1 none
      [("d.bin", List.replicate 12 0)] = .error .zeroDivisionError := by
  rfl

/-- C2 amended: every descriptor with declared count n greater than 0 whose
backing subfiles are present with exactly 12n bytes assembles into a DataSet
with n x values and n y values, in the subfile x-source case and in the
fixed-step case provided the step is nonzero (a zero step instead raises,
see the counterexample). -/
theorem assembled_dataset_lengths (name ch : Option String) (xv : XSource) (yp : String)
    (n : ℕ) (archive : Archive) (ybuf : List Nat)
    (hn : 0 < n)
    (hy : lookupA archive (indexGrokKey yp) = some ybuf)
    (hylen : ybuf.length = 12 * n)
    (hx : ∀ p, xv = .path p →
      ∃ xbuf, lookupA archive (indexGrokKey p) = some xbuf ∧ xbuf.length = 12 * n)
    (hs : ∀ s, xv = .step s → s ≠ 0) :
    ∃ d, mkDataSet name xv (some yp) (n : Int) ch archive = .ok d ∧
      d.x_values.length = n ∧ d.y_values.length = n := by
  have hgy := grokIndex_read_full yp n archive ybuf hn hy (by omega)
  cases xv with
  | path p =>
    obtain ⟨xbuf, hxl, hxlen⟩ := hx p rfl
    have hgx := grokIndex_read_full p n archive xbuf hn hxl (by omega)
    refine ⟨⟨name, grokNumbers (xbuf.take (12 * n)) (n : Int),
        grokNumbers (ybuf.take (12 * n)) (n : Int), (n : Int), ch⟩, ?_,
      grokNumbers_length _ n, grokNumbers_length _ n⟩
    simp [mkDataSet, hgx, hgy, bind, Except.bind]
  | step s =>
    have hfr := frange_spec s n (hs s rfl)
    refine ⟨⟨name, ((List.range n).map (fun (i : Nat) => pyRound12 (s * (i : ℚ)))).map PFloat.fin,
        grokNumbers (ybuf.take (12 * n)) (n : Int), (n : Int), ch⟩, ?_, by simp,
      grokNumbers_length _ n⟩
    simp only [mkDataSet, Int.cast_natCast, hfr, hgy, bind, Except.bind]

/-- Witness for the amended C2 in the subfile x-source case with count 1. -/
theorem assembled_dataset_lengths_witness :
    0 < 1 ∧
    ∃ d, mkDataSet (some "Temp") (.path "x.bin") (some "y.bin") ((1 : ℕ) : Int) none
        [("x.bin", List.replicate 12 0), ("y.bin", List.replicate 12 0)] = .ok d ∧
      d.x_values.length = 1 ∧ d.y_values.length = 1 :=
  ⟨Nat.one_pos,
    assembled_dataset_lengths (some "Temp") none (.path "x.bin") "y.bin" 1
      [("x.bin", List.replicate 12 0), ("y.bin", List.replicate 12 0)]
      (List.replicate 12 0) Nat.one_pos (by decide) (by decide)
      (fun p hp => by
        cases hp
        exact ⟨List.replicate 12 0, by decide, by decide⟩)
      (fun s hs => nomatch hs)⟩

/-- A manifest DataSet element whose independent storage element carries
neither FileName nor IntervalCacheInterval, with a well-formed dependent
side. -/
def c1Element : DataSetElement :=
  { dataGroupNumber := some "1",
    dataSegment := some
      { dependent := some { fileName := some "d.bin", dataCacheDataSize := some "1" },
        independent := some { fileName := none, intervalCacheInterval := none } } }

/-- The data source owning that element. -/
def c1Source : DataSource :=
  { measurementName := some "Temp", channelIDName := none, dataSets := [c1Element] }

/-- A manifest containing only that channel. -/
def c1Manifest : Manifest :=
  { dataSources := [c1Source] }

/-- A CapstoneFile whose archive holds the dependent subfile. -/
def c1Cap : CapstoneFileModel :=
  { archive := [("d.bin", List.replicate 12 0)] }

/-- C1 counterexample: on a manifest whose only channel lacks both FileName
and IntervalCacheInterval on the independent storage element, index
construction is claimed to skip the channel and keep going; instead
float(None) raises TypeError and the exception propagates out of
process_archive, producing no groups at all. -/
theorem processArchive_malformed_independent_raises :
    processArchive (.capstone c1Cap) c1Manifest = .error .typeError := by
  decide

/-- A channel whose independent storage element has no usable source: the
FileName attribute is absent or empty (falsy) and the IntervalCacheInterval
attribute is absent or unparsable. -/
def BadIndependent (el : DataSetElement) : Prop :=
  ∃ seg ind, el.dataSegment = some seg ∧ seg.independent = some ind ∧
    (ind.fileName = none ∨ ind.fileName = some "") ∧
    (ind.intervalCacheInterval = none ∨
      ∃ s, ind.intervalCacheInterval = some s ∧ pyFloat s = none)

lemma dsParse_bad (el : DataSetElement) (h : BadIndependent el) :
    ∃ e, dsParse el = .error e := by
  obtain ⟨seg, ind, hseg, hind, hfn, hint⟩ := h
  have hfall : ∃ e, indFallback ind = .error e := by
    rcases hint with hnone | ⟨s, hsome, hpf⟩
    · exact ⟨.typeError, by simp [indFallback, hnone]⟩
    · exact ⟨.valueError, by simp [indFallback, hsome, hpf]⟩
  obtain ⟨ef, hef⟩ := hfall
  rcases hg : pyIntAttr el.dataGroupNumber with eg | g
  · exact ⟨eg, by simp [dsParse, hseg, hg, bind, Except.bind]⟩
  · rcases hdep : seg.dependent with _ | dep
    · exact ⟨.attributeError, by simp [dsParse, hseg, hg, hdep, bind, Except.bind]⟩
    · rcases hds : pyIntAttr dep.dataCacheDataSize with es | sz
      · exact ⟨es, by simp [dsParse, hseg, hg, hdep, hds, bind, Except.bind]⟩
      · rcases hfn with h1 | h1 <;>
          exact ⟨ef, by simp [dsParse, hseg, hg, hdep, hds, hind, h1, hef, bind, Except.bind]⟩

lemma dsStep_bad (capArg : CapArg) (mname cname : Option String) (el : DataSetElement)
    (h : BadIndependent el) (acc : List (Int × List DataSet)) :
    ∃ e, dsStep capArg mname cname acc el = .error e := by
  obtain ⟨e, he⟩ := dsParse_bad el h
  exact ⟨e, by simp [dsStep, he, bind, Except.bind]⟩

lemma foldE_mem_error {f : β → α → Except PyErr β} {x : α} (l : List α)
    (hx : x ∈ l) (hbad : ∀ b, ∃ e, f b x = .error e) :
    ∀ b, ∃ e, foldE f b l = .error e := by
  induction l with
  | nil => cases hx
  | cons a t ih =>
    intro b
    rcases List.mem_cons.mp hx with rfl | hmem
    · obtain ⟨e, he⟩ := hbad b
      exact ⟨e, by simp [foldE, he]⟩
    · rcases hfa : f b a with e | b2
      · exact ⟨e, by simp [foldE, hfa]⟩
      · obtain ⟨e, he⟩ := ih hmem b2
        exact ⟨e, by simp [foldE, hfa, he]⟩

lemma sourceStep_bad (capArg : CapArg) (src : DataSource) (el : DataSetElement)
    (hel : el ∈ src.dataSets) (h : BadIndependent el) :
    ∀ acc, ∃ e, sourceStep capArg acc src = .error e := by
  intro acc
  have hne : src.dataSets.isEmpty = false := by
    cases hd : src.dataSets with
    | nil => rw [hd] at hel; cases hel
    | cons _ _ => rfl
  obtain ⟨e, he⟩ := foldE_mem_error src.dataSets hel
    (fun b => dsStep_bad capArg src.measurementName src.channelIDName el h b) acc
  exact ⟨e, by simp [sourceStep, hne, he]⟩

/-- C1 amended: a manifest containing any channel whose independent storage
element lacks both attributes (or has an unparsable interval) makes index
construction raise an exception, for either call form: the run never
completes, no grouped result is returned, and the other channels of the
manifest are lost with it (nothing is skipped). -/
theorem processArchive_bad_independent_aborts (capArg : CapArg) (m : Manifest)
    (src : DataSource) (el : DataSetElement)
    (hsrc : src ∈ m.dataSources) (hel : el ∈ src.dataSets) (hbad : BadIndependent el) :
    exceptIsOk (processArchive capArg m) = false := by
  obtain ⟨e, he⟩ := foldE_mem_error m.dataSources hsrc
    (sourceStep_bad capArg src el hel hbad) []
  simp [processArchive, he, exceptIsOk]

/-- Witness for the amended C1 at the concrete malformed manifest. -/
theorem processArchive_bad_independent_aborts_witness :
    BadIndependent c1Element ∧
    exceptIsOk (processArchive (.capstone c1Cap) c1Manifest) = false :=
  ⟨⟨_, _, rfl, rfl, Or.inl rfl, Or.inl rfl⟩,
    processArchive_bad_independent_aborts (.capstone c1Cap) c1Manifest c1Source c1Element
      (List.mem_singleton.mpr rfl) (List.mem_singleton.mpr rfl)
      ⟨_, _, rfl, rfl, Or.inl rfl, Or.inl rfl⟩⟩

lemma foldE_cons_ok {f : β → α → Except PyErr β} {b : β} {a : α} {t : List α} {r : β}
    (h : foldE f b (a :: t) = .ok r) :
    ∃ b2, f b a = .ok b2 ∧ foldE f b2 t = .ok r := by
  rcases hfa : f b a with e | b2
  · simp [foldE, hfa] at h
  · exact ⟨b2, rfl, by simpa [foldE, hfa] using h⟩

lemma dsStep_zip_err (z : Archive) (mn cn : Option String)
    (acc : List (Int × List DataSet)) (el : DataSetElement)
    (hparse : ∃ v, dsParse el = .ok v) :
    dsStep (.zip z) mn cn acc el = .error .attributeError := by
  obtain ⟨v, hv⟩ := hparse
  simp [dsStep, hv, argArchive, bind, Except.bind]

lemma dsStep_capstone_parse (c : CapstoneFileModel) (mn cn : Option String)
    (acc : List (Int × List DataSet)) (el : DataSetElement) (b2 : List (Int × List DataSet))
    (h : dsStep (.capstone c) mn cn acc el = .ok b2) : ∃ v, dsParse el = .ok v := by
  rcases hv : dsParse el with e | v
  · simp [dsStep, hv, bind, Except.bind] at h
  · exact ⟨v, rfl⟩

/-- C10: if calling process_archive on a CapstoneFile instance succeeds on a
manifest that has at least one channel, then calling it with a raw ZipFile
argument on the same manifest raises AttributeError: DataSet construction
evaluates capstone_file.archive, which a ZipFile does not have.  The method
therefore only completes as documented when invoked on an instance. -/
theorem processArchive_zipfile_attribute_error (c : CapstoneFileModel) (z : Archive)
    (m : Manifest) (r : List (Int × List DataSet))
    (hok : processArchive (.capstone c) m = .ok r)
    (hne : ∃ src ∈ m.dataSources, src.dataSets ≠ []) :
    processArchive (.zip z) m = .error .attributeError := by
  unfold processArchive at hok ⊢
  have h : ∀ (l : List DataSource) (acc r2 : _),
      foldE (sourceStep (.capstone c)) acc l = .ok r2 →
      (∃ src ∈ l, src.dataSets ≠ []) →
      foldE (sourceStep (.zip z)) acc l = .error .attributeError := by
    intro l
    induction l with
    | nil =>
      intro acc r2 _ hne2
      obtain ⟨src, hmem, _⟩ := hne2
      cases hmem
    | cons a t ih =>
      intro acc r2 hok2 hne2
      rcases hds : a.dataSets with _ | ⟨el, els⟩
      · have hskip : sourceStep (.capstone c) acc a = .ok acc := by
          simp [sourceStep, hds]
        have hskipz : sourceStep (.zip z) acc a = .ok acc := by
          simp [sourceStep, hds]
        rw [foldE, hskip] at hok2
        have hne3 : ∃ src ∈ t, src.dataSets ≠ [] := by
          obtain ⟨src, hmem, hneq⟩ := hne2
          rcases List.mem_cons.mp hmem with rfl | hm
          · exact absurd hds hneq
          · exact ⟨src, hm, hneq⟩
        rw [foldE, hskipz]
        exact ih acc r2 hok2 hne3
      · obtain ⟨acc2, hsa, _⟩ := foldE_cons_ok hok2
        have hinner : foldE (dsStep (.capstone c) a.measurementName a.channelIDName)
            acc (el :: els) = .ok acc2 := by
          simpa [sourceStep, hds] using hsa
        obtain ⟨b2, hstep, _⟩ := foldE_cons_ok hinner
        have hz := dsStep_zip_err z a.measurementName a.channelIDName acc el
          (dsStep_capstone_parse c a.measurementName a.channelIDName acc el b2 hstep)
        have hsz : sourceStep (.zip z) acc a = .error .attributeError := by
          simp [sourceStep, hds, foldE, hz]
        rw [foldE, hsz]
  exact h m.dataSources [] r hok hne

/-- A well-formed single-channel manifest with declared size 0 (so the data
sets assemble without touching the archive). -/
def c10Element : DataSetElement :=
  { dataGroupNumber := some "1",
    dataSegment := some
      { dependent := some { fileName := some "d.bin", dataCacheDataSize := some "0" },
        independent := some { fileName := some "x.bin", intervalCacheInterval := none } } }

/-- The data source owning that channel. -/
def c10Source : DataSource :=
  { measurementName := some "Temp", channelIDName := none, dataSets := [c10Element] }

/-- A manifest with exactly that channel. -/
def c10Manifest : Manifest :=
  { dataSources := [c10Source] }

/-- A CapstoneFile instance with an empty archive. -/
def c10Cap : CapstoneFileModel :=
  { archive := [] }

/-- Witness for C10: the instance call succeeds and yields one channel, the
ZipFile call on the same manifest raises AttributeError. -/
theorem processArchive_zipfile_attribute_error_witness :
    processArchive (.capstone c10Cap) c10Manifest =
      .ok [(1, [⟨some "Temp", [], [], 0, none⟩])] ∧
    processArchive (.zip []) c10Manifest = .error .attributeError :=
  ⟨by decide,
    processArchive_zipfile_attribute_error c10Cap [] c10Manifest
      [(1, [⟨some "Temp", [], [], 0, none⟩])] (by decide)
      ⟨c10Source, List.mem_singleton.mpr rfl, by decide⟩⟩

/-- A 12-byte record whose 8-byte payload encodes the double 1.0. -/
def recOne : List Nat := [0, 0, 0, 0, 0, 0, 0, 0, 0, 0, 240, 63]

/-- A 12-byte record whose 8-byte payload encodes the double 2.0. -/
def recTwo : List Nat := [0, 0, 0, 0, 0, 0, 0, 0, 0, 0, 0, 64]

/-- C6: a channel whose dependent subfile is absent while its independent
subfile is present and valid crashes the line-table exporter: the combined
data is the single x row, transpose yields 1-tuples, and line[1] raises
IndexError — the claim that every exporter renders the channel as empty or
skips it without exception is the intended behavior, which the code misses.
The delimited-table exporter, by contrast, pads the missing y column and
stays rectangular. -/
theorem pasco_missing_dependent_crashes :
    pascoExportGroup [("x.bin", recOne)] 1 [("C", .path "x.bin", some "y.bin", 1)] =
      .error .indexError ∧
    toCsv [(1, [⟨some "C", [.fin 1], [], 1, none⟩])] "." ";" =
      "Group 1;;\nC;;\n1.0;;" := by
  constructor
  · decide
  · decide

/-- C7 counterexample: with two nonzero-size channels whose sorted order is
A (decode fails: both subfiles absent) then B (decode succeeds), the emitted
output carries legend index 1 for B and no legend index 0 at all, and the
skipped channel produced its diagnostics — so a failed channel does consume
a legend index and the emitted indices are not consecutive from 0. -/
theorem pasco_failed_channel_consumes_legend :
    Except.map
      (fun st => (strOccurs "legend string 0" st.1, strOccurs "legend string 1" st.1, st.2))
      (pascoExportGroup [("x.bin", recOne), ("y.bin", recTwo)] 1
        [("B", .path "x.bin", some "y.bin", 1), ("A", .path "ax.bin", some "ay.bin", 1)]) =
      .ok (false, true,
        [Diag.subfileMissing "ax.bin", Diag.subfileMissing "ay.bin", Diag.failedToRead 1 1]) := by
  decide

lemma pascoEmit_legend (text : String) (l2 : Int) (dia : List Diag) (pfx : String)
    (g : Int) (comb : List (List PFloat)) (st2 : PascoState)
    (h : pascoEmit text l2 dia pfx g comb = .ok st2) : st2.2.1 = l2 := by
  unfold pascoEmit at h
  split at h
  · cases h
    rfl
  · rcases hb : formatTabulatedData (comb.map (fun l => l.map PyNum.ofFloat)) with e | body
    · rw [hb] at h
      simp [bind, Except.bind] at h
    · rw [hb] at h
      simp only [bind, Except.bind] at h
      cases h
      rfl

/-- C7 amended: every channel with nonzero declared size consumes exactly
one legend index, whether or not its body is emitted — the legend index is
incremented before the decode is attempted, so skipped channels leave gaps
and the emitted indices are strictly increasing but not necessarily
consecutive from 0 (the counterexample shows a gap). -/
theorem pasco_legend_always_consumed (archive : Archive) (g : Int)
    (st st2 : PascoState) (ch : PascoChannel) (hsz : ch.2.2.2 ≠ 0)
    (h : pascoChannelStep archive g st ch = .ok st2) :
    st2.2.1 = st.2.1 + 1 := by
  obtain ⟨label, xd, yd, size⟩ := ch
  unfold pascoChannelStep at h
  rw [if_neg hsz] at h
  cases xd with
  | step s =>
    dsimp only at h
    rcases hdep : grokPasca yd size archive with e | depPair
    · rw [hdep] at h
      simp [bind, Except.bind] at h
    · rw [hdep] at h
      simp only [bind, Except.bind] at h
      split at h
      · cases h
        rfl
      · exact pascoEmit_legend _ _ _ _ _ _ _ h
  | path p =>
    dsimp only at h
    rcases hgx : grokPasca (some p) size archive with e | gx
    · rw [hgx] at h
      simp [bind, Except.bind] at h
    · rcases hgy : grokPasca yd size archive with e | gy
      · rw [hgx, hgy] at h
        simp [bind, Except.bind] at h
      · rw [hgx, hgy] at h
        simp only [bind, Except.bind] at h
        exact pascoEmit_legend _ _ _ _ _ _ _ h

/-- Witness for the amended C7: the failing channel A consumes a legend
index, moving the counter from 5 to 6. -/
theorem pasco_legend_always_consumed_witness :
    (("A", XSource.path "ax.bin", some "ay.bin", (1 : Int)) : PascoChannel).2.2.2 ≠ 0 ∧
    (("", (6 : Int), [Diag.subfileMissing "ax.bin", Diag.subfileMissing "ay.bin",
        Diag.failedToRead 6 1]) : PascoState).2.1 =
      (("", (5 : Int), ([] : List Diag)) : PascoState).2.1 + 1 :=
  ⟨by decide,
    pasco_legend_always_consumed [] 1 ("", 5, [])
      ("", 6, [Diag.subfileMissing "ax.bin", Diag.subfileMissing "ay.bin",
        Diag.failedToRead 6 1])
      ("A", XSource.path "ax.bin", some "ay.bin", 1) (by decide) (by decide)⟩

/-- A grouped result whose dict insertion order is group 2 (channels named B
then A) before group 1. -/
def csvOrderEx : List (Int × List DataSet) :=
  [(2, [⟨some "B", [.fin 0], [.fin 1], 1, none⟩, ⟨some "A", [.fin 0], [.fin 1], 1, none⟩]),
   (1, [⟨some "C", [.fin 0], [.fin 1], 1, none⟩])]

/-- A line-table group whose discovery order is B before A. -/
def pascoOrderEx : PascoGroups :=
  [(1, [("B", .path "x.bin", some "y.bin", 1), ("A", .path "x.bin", some "y.bin", 1)])]

/-- C8 counterexample: the delimited-table export emits Group 2 before
Group 1 (dict insertion order, not ascending numeric order) and channel B
before channel A (discovery order, not ascending name order), while the
line-table export emits the channel section of A before that of B
(ascending name order, not discovery order) — the claimed orderings are
exactly swapped between the two exporters. -/
theorem export_order_swapped :
    occursBefore "Group 2" "Group 1" (toCsv csvOrderEx "." ";") = true ∧
    occursBefore "B" "A" (toCsv csvOrderEx "." ";") = true ∧
    Except.map (fun l => l.map (fun p => occursBefore "field \"A\"" "field \"B\"" p.2))
      (pascoExport [("x.bin", recOne), ("y.bin", recTwo)] pascoOrderEx) = .ok [true] := by
  refine ⟨by decide, by decide, by decide⟩

lemma mapE_pasco_fst (archive : Archive) (l : PascoGroups) (r : List (Int × String))
    (h : mapE
      (fun p =>
        match pascoExportGroup archive p.1 p.2 with
        | .error e => .error e
        | .ok st => .ok (p.1, st.1)) l = .ok r) :
    r.map Prod.fst = l.map Prod.fst := by
  induction l generalizing r with
  | nil =>
    cases h
    rfl
  | cons a t ih =>
    unfold mapE at h
    rcases hg : pascoExportGroup archive a.1 a.2 with e | st
    · rw [hg] at h
      simp at h
    · rw [hg] at h
      rcases hm : mapE
          (fun p =>
            match pascoExportGroup archive p.1 p.2 with
            | .error e => .error e
            | .ok st => .ok (p.1, st.1)) t with e | bs
      · rw [hm] at h
        simp at h
      · rw [hm] at h
        simp only at h
        cases h
        simp [ih bs hm]

lemma map_fst_insertSortedBy {α : Type} (x : Int × α) (l : List (Int × α)) :
    (insertSortedBy (fun a b => intLe a.1 b.1) x l).map Prod.fst =
      insertSortedBy intLe x.1 (l.map Prod.fst) := by
  induction l with
  | nil => rfl
  | cons y t ih =>
    simp only [insertSortedBy, List.map_cons]
    by_cases hxy : intLe y.1 x.1
    · simp [hxy, ih]
    · simp [hxy]

lemma map_fst_insertSortBy {α : Type} (l : List (Int × α)) :
    (insertSortBy (fun a b => intLe a.1 b.1) l).map Prod.fst =
      insertSortBy intLe (l.map Prod.fst) := by
  unfold insertSortBy
  have aux : ∀ (l2 : List (Int × α)) (acc : List (Int × α)),
      (l2.foldl (fun acc x => insertSortedBy (fun a b => intLe a.1 b.1) x acc) acc).map Prod.fst =
        (l2.map Prod.fst).foldl (fun acc x => insertSortedBy intLe x acc) (acc.map Prod.fst) := by
    intro l2
    induction l2 with
    | nil => intro acc; rfl
    | cons a t ih =>
      intro acc
      simp only [List.foldl_cons, List.map_cons]
      rw [ih, map_fst_insertSortedBy]
  exact aux l []

lemma chain_insertSortedBy (x : Int) (l : List Int)
    (hc : List.Chain' (fun a b => a ≤ b) l) :
    List.Chain' (fun a b => a ≤ b) (insertSortedBy intLe x l) := by
  induction l with
  | nil => simp [insertSortedBy]
  | cons y t ih =>
    unfold insertSortedBy
    by_cases hxy : intLe y x
    · rw [if_pos hxy]
      obtain ⟨hhead, htail⟩ := List.chain'_cons'.mp hc
      refine List.chain'_cons'.mpr ⟨?_, ih htail⟩
      intro h hh
      cases t with
      | nil =>
        simp [insertSortedBy] at hh
        subst hh
        simpa [intLe, decide_eq_true_eq] using hxy
      | cons z ts =>
        by_cases hzx : intLe z x
        · simp [insertSortedBy, hzx] at hh
          subst hh
          exact hhead z rfl
        · simp [insertSortedBy, hzx] at hh
          subst hh
          simpa [intLe, decide_eq_true_eq] using hxy
    · rw [if_neg hxy]
      refine List.chain'_cons'.mpr ⟨?_, hc⟩
      intro h hh
      simp at hh
      subst hh
      have hyx : ¬(y ≤ x) := by simpa [intLe, decide_eq_true_eq] using hxy
      omega

lemma chain_insertSortBy (l : List Int) :
    List.Chain' (fun a b => a ≤ b) (insertSortBy intLe l) := by
  unfold insertSortBy
  have aux : ∀ (l2 : List Int) (acc : List Int),
      List.Chain' (fun a b => a ≤ b) acc →
      List.Chain' (fun a b => a ≤ b)
        (l2.foldl (fun acc x => insertSortedBy intLe x acc) acc) := by
    intro l2
    induction l2 with
    | nil => intro acc hacc; exact hacc
    | cons a t ih =>
      intro acc hacc
      simp only [List.foldl_cons]
      exact ih _ (chain_insertSortedBy a acc hacc)
  exact aux l [] (by simp)

/-- C8 amended: the line-table export iterates groups in ascending numeric
group-number order (its emitted file list carries the stably sorted group
numbers, which form an ascending chain); the delimited-table export instead
iterates groups in dict insertion order and channels in discovery order, and
the line-table iterates channels in ascending name order (the counterexample
exhibits both reversals). -/
theorem pasco_groups_ascending (archive : Archive) (ds : PascoGroups)
    (r : List (Int × String)) (h : pascoExport archive ds = .ok r) :
    r.map Prod.fst = insertSortBy intLe (ds.map Prod.fst) ∧
    List.Chain' (fun a b => a ≤ b) (r.map Prod.fst) := by
  have h1 : r.map Prod.fst = (insertSortBy (fun a b => intLe a.1 b.1) ds).map Prod.fst :=
    mapE_pasco_fst archive _ r h
  refine ⟨by rw [h1, map_fst_insertSortBy], ?_⟩
  rw [h1, map_fst_insertSortBy]
  exact chain_insertSortBy _

/-- The fixed header block of every line-table output file. -/
def pascoHeader : String := "# dump from cap file\n@WITH G0\n@G0 ON\n"

/-- Witness for the amended C8 on two empty groups inserted out of order. -/
theorem pasco_groups_ascending_witness :
    ([((1 : Int), pascoHeader), (2, pascoHeader)].map Prod.fst =
      insertSortBy intLe (([(2, ([] : List PascoChannel)), (1, [])] : PascoGroups).map Prod.fst)) ∧
    List.Chain' (fun a b => a ≤ b)
      ([((1 : Int), pascoHeader), (2, pascoHeader)].map Prod.fst) :=
  pasco_groups_ascending [] [(2, []), (1, [])] [(1, pascoHeader), (2, pascoHeader)] (by decide)
